import Mathlib

/-!
Verification development for the WHISTLE relay hub and cache-node agent.

The definitions below are a shallow embedding of the two core source files:
- the relay server (connection registry, registration protocol, load-balancing
  router, wallet-stats persistence) from
  src/infrastructure/relay-server/src/database.ts, and
- the cache-node agent (response cache, TTL policy, deny-list) from
  src/infrastructure/node-client/node.js.

Conventions of the embedding:
- JavaScript Map objects become association lists with JS Map semantics:
  setting an existing key updates it in place (keeping its insertion
  position), setting a fresh key appends, delete removes the entry.
- Timestamps are naturals (milliseconds since epoch).
- JS floating point arithmetic on the latency EMA (x*0.7 + y*0.3 etc.) is
  modelled by exact rational arithmetic on naturals; no claim below depends
  on the EMA value.
- Fallible JS paths (upstream RPC failure) become explicit sum types.
-/

namespace Whistle

/-! ### JS Map as an association list -/

/-- JS Map.get: first entry with the key, if any. -/
def jget {α : Type} (k : String) : List (String × α) → Option α
  | [] => none
  | (k', v) :: rest => if k' = k then some v else jget k rest

/-- JS Map.set: update an existing key in place, else append. -/
def jset {α : Type} (k : String) (v : α) : List (String × α) → List (String × α)
  | [] => [(k, v)]
  | (k', v') :: rest => if k' = k then (k, v) :: rest else (k', v') :: jset k v rest

/-- JS Map.delete: remove the (first) entry with the key. -/
def jdel {α : Type} (k : String) : List (String × α) → List (String × α)
  | [] => []
  | (k', v') :: rest => if k' = k then rest else (k', v') :: jdel k rest

/-- The keys of the association list are pairwise distinct (true of every
JS Map; maintained by jset and jdel). -/
@[reducible] def keysNodup {α : Type} (l : List (String × α)) : Prop :=
  (l.map Prod.fst).Nodup

/-! ### Relay hub data model (database.ts) -/

/-- ConnectedNode.stats. -/
structure NodeStats where
  requestsHandled : Nat
  avgLatencyMs : Nat
  cacheHits : Nat
  cacheMisses : Nat
  errors : Nat
deriving DecidableEq

/-- PersistedStats: the per-wallet durable record (interface PersistedStats). -/
structure PersistedStats where
  requestsHandled : Nat
  avgLatencyMs : Nat
  cacheHits : Nat
  cacheMisses : Nat
  errors : Nat
  totalUptime : Nat
  lastDisconnect : Nat
  firstConnect : Nat
  lastIP : Option String
deriving DecidableEq

/-- ConnectedNode (the transient per-socket record; on-chain mirror fields
and the pending-request map are omitted, no claim touches them). -/
structure ConnectedNode where
  id : String
  operator : String
  name : String
  isRegistered : Bool
  connectedAt : Nat
  lastPing : Nat
  ip : String
  stats : NodeStats
deriving DecidableEq

/-- The hub's three global maps: connectedNodes (nodeId to node),
nodesByWallet (wallet to nodeId), walletStats (wallet to persisted stats). -/
structure HubState where
  connectedNodes : List (String × ConnectedNode)
  nodesByWallet : List (String × String)
  walletStats : List (String × PersistedStats)
deriving DecidableEq

/-- persistWalletStats (database.ts lines 808-838): max-merge the live
session counters into the persisted record; a fresh wallet gets a new entry
whose totalUptime is seeded with the elapsed session time. -/
def persistWalletStats (wallet : String) (stats : NodeStats) (connectedAt now : Nat)
    (ws : List (String × PersistedStats)) : List (String × PersistedStats) :=
  match jget wallet ws with
  | some existing =>
      jset wallet
        { existing with
          requestsHandled := max existing.requestsHandled stats.requestsHandled
          cacheHits := max existing.cacheHits stats.cacheHits
          cacheMisses := max existing.cacheMisses stats.cacheMisses
          errors := max existing.errors stats.errors
          avgLatencyMs :=
            if stats.avgLatencyMs > 0 then
              if existing.avgLatencyMs = 0 then stats.avgLatencyMs
              else (existing.avgLatencyMs * 7 + stats.avgLatencyMs * 3) / 10
            else existing.avgLatencyMs } ws
  | none =>
      jset wallet
        { requestsHandled := stats.requestsHandled
          avgLatencyMs := stats.avgLatencyMs
          cacheHits := stats.cacheHits
          cacheMisses := stats.cacheMisses
          errors := stats.errors
          totalUptime := (now - connectedAt) / 1000
          lastDisconnect := 0
          firstConnect := connectedAt
          lastIP := none } ws

/-- The walletStats update done by the socket close handler
(database.ts lines 1053-1082): add the session uptime once, record
lastDisconnect and lastIP, max-merge the counters. -/
def closeMergeStats (n : ConnectedNode) (now : Nat)
    (ws : List (String × PersistedStats)) : List (String × PersistedStats) :=
  let sessionUptime := (now - n.connectedAt) / 1000
  match jget n.operator ws with
  | some p =>
      jset n.operator
        { p with
          totalUptime := p.totalUptime + sessionUptime
          lastDisconnect := now
          lastIP := some n.ip
          requestsHandled := max p.requestsHandled n.stats.requestsHandled
          cacheHits := max p.cacheHits n.stats.cacheHits
          cacheMisses := max p.cacheMisses n.stats.cacheMisses
          errors := max p.errors n.stats.errors } ws
  | none =>
      jset n.operator
        { requestsHandled := n.stats.requestsHandled
          avgLatencyMs := n.stats.avgLatencyMs
          cacheHits := n.stats.cacheHits
          cacheMisses := n.stats.cacheMisses
          errors := n.stats.errors
          totalUptime := sessionUptime
          lastDisconnect := now
          lastIP := some n.ip
          firstConnect := n.connectedAt } ws

/-- The full close handler (database.ts lines 1049-1087): flush stats,
delete the wallet from nodesByWallet (unconditionally), delete this
socket's nodeId from connectedNodes. The argument is the closure's node
object captured when the socket was opened. -/
def closeHandle (n : ConnectedNode) (now : Nat) (st : HubState) : HubState :=
  let st1 :=
    if n.operator = "" then st
    else
      { st with
        walletStats := closeMergeStats n now st.walletStats
        nodesByWallet := jdel n.operator st.nodesByWallet }
  { st1 with connectedNodes := jdel n.id st1.connectedNodes }

/-! ### Registration protocol (database.ts lines 863-1021) -/

/-- JS truthiness of an optional string field (undefined and the empty
string are falsy). -/
def jsTruthyStr : Option String → Bool
  | none => false
  | some s => !(s = "")

/-- One character of the regex class `[0-9a-f]` with the `i` flag. -/
def isHexDigit (c : Char) : Bool :=
  (('0' ≤ c) && (c ≤ '9')) || (('a' ≤ c) && (c ≤ 'f')) || (('A' ≤ c) && (c ≤ 'F'))

/-- The lightweight signature format check of verifySignature
(database.ts lines 270-276): nonempty, exactly 64 characters, all hex. -/
def sigFormatOk (s : String) : Bool :=
  (!(s = "")) && (s.length = 64) && s.data.all isHexDigit

/-- verifySignature (database.ts lines 257-277). A missing timestamp makes
the window comparison NaN > 300000, which is false in JS, so the window
check is skipped. -/
def verifySignature (timestamp : Option Nat) (now : Nat) (signature : String) : Bool :=
  match timestamp with
  | some t => if (if t ≤ now then now - t else t - now) > 5 * 60 * 1000 then false
              else sigFormatOk signature
  | none => sigFormatOk signature

/-- Messages the hub sends on a socket during registration. -/
inductive OutMsg where
  | authFailed (error : String)
  | notRegistered
  | registered (isRegistered : Bool)
deriving DecidableEq

/-- Result of running the register handler: the new hub state, the messages
sent on the registering socket in order, and the old node object whose
socket was closed by the takeover (its close event is still pending). -/
structure RegResult where
  state : HubState
  msgs : List OutMsg
  closedOld : Option ConnectedNode
deriving DecidableEq

/-- The takeover step of case 'register' (database.ts lines 968-979):
if the wallet already maps to a different live connection, persist its
session counters, close its socket and remove it from connectedNodes. -/
def takeoverStep (st : HubState) (nodeId wallet : String) (now : Nat) :
    HubState × Option ConnectedNode :=
  match jget wallet st.nodesByWallet with
  | some oldId =>
      if oldId = nodeId then (st, none)
      else
        match jget oldId st.connectedNodes with
        | some oldNode =>
            ({ st with
               walletStats := persistWalletStats wallet oldNode.stats oldNode.connectedAt now
                 st.walletStats
               connectedNodes := jdel oldId st.connectedNodes }, some oldNode)
        | none => (st, none)
  | none => (st, none)

/-- The stats seeded into the fresh ConnectedNode from the persisted record
(database.ts lines 981-1002), with the different-IP penalty reset. -/
def seedStats (persisted : Option PersistedStats) (ip : String) : NodeStats :=
  match persisted with
  | none => { requestsHandled := 0, avgLatencyMs := 0, cacheHits := 0, cacheMisses := 0,
              errors := 0 }
  | some p =>
      let s : NodeStats :=
        { requestsHandled := p.requestsHandled
          avgLatencyMs := p.avgLatencyMs
          cacheHits := p.cacheHits
          cacheMisses := p.cacheMisses
          errors := p.errors }
      match p.lastIP with
      | some oldIP => if oldIP = ip then s else { s with avgLatencyMs := 0, errors := 0 }
      | none => s

/-- The on-chain lookup result actually used by case 'register': the oracle
is only consulted when REQUIRE_REGISTRATION holds (database.ts lines
935-941). none when the account is missing or was not fetched, otherwise
the account's isActive flag. -/
def regAcct (onChainActive : Option Bool) (requireReg : Bool) : Option Bool :=
  if requireReg then onChainActive else none

/-- The isRegistered flag assigned during registration (database.ts lines
947-966): true for an active on-chain account, and in dev mode
(registration not required) for everyone. -/
def regIsReg (onChainActive : Option Bool) (requireReg : Bool) : Bool :=
  match regAcct onChainActive requireReg with
  | some true => true
  | _ => !requireReg

/-- The messages sent before the 'registered' acknowledgment: exactly the
not_registered notice of lines 954-961 when required registration fails. -/
def regPreMsgs (onChainActive : Option Bool) (requireReg : Bool) : List OutMsg :=
  match regAcct onChainActive requireReg with
  | some true => []
  | _ => if requireReg then [OutMsg.notRegistered] else []

/-- The fresh ConnectedNode as completed by case 'register', with its
counters seeded from the persisted record of st1 (the state after the
takeover). -/
def regNode (st1 : HubState) (nodeId wallet : String) (name : Option String)
    (ip : String) (connectedAt : Nat) (onChainActive : Option Bool)
    (requireReg : Bool) : ConnectedNode :=
  { id := nodeId
    operator := wallet
    name := name.getD ("Node-" ++ nodeId)
    isRegistered := regIsReg onChainActive requireReg
    connectedAt := connectedAt
    lastPing := connectedAt
    ip := ip
    stats := seedStats (jget wallet st1.walletStats) ip }

/-- The admitted part of case 'register' (database.ts lines 933-1021),
after the wallet and signature checks passed: settle the registration
flag, take over any previous connection of the wallet, seed the counters
from the persisted record, insert the connection into both indices, and
acknowledge with 'registered'. -/
def registerAccept (st : HubState) (nodeId wallet : String) (name : Option String)
    (ip : String) (connectedAt now : Nat) (onChainActive : Option Bool)
    (requireReg : Bool) : RegResult :=
  let p1 := takeoverStep st nodeId wallet now
  let st1 := p1.1
  let node := regNode st1 nodeId wallet name ip connectedAt onChainActive requireReg
  { state :=
      { st1 with
        nodesByWallet := jset wallet nodeId st1.nodesByWallet
        connectedNodes := jset nodeId node st1.connectedNodes }
    msgs := regPreMsgs onChainActive requireReg ++
      [OutMsg.registered (regIsReg onChainActive requireReg)]
    closedOld := p1.2 }

/-- The whole case 'register' (database.ts lines 906-1021): the auth gate
followed by registerAccept. Note the signature (and with it the timestamp)
is only verified when REQUIRE_REGISTRATION holds and the signature field
is truthy. -/
def registerHandle (st : HubState) (nodeId : String) (wallet name signature : Option String)
    (timestamp : Option Nat) (ip : String) (connectedAt now : Nat)
    (onChainActive : Option Bool) (requireReg : Bool) : RegResult :=
  if !jsTruthyStr wallet then
    { state := st, msgs := [OutMsg.authFailed "Wallet address required"], closedOld := none }
  else if requireReg && jsTruthyStr signature &&
      !(verifySignature timestamp now (signature.getD "")) then
    { state := st, msgs := [OutMsg.authFailed "Invalid signature"], closedOld := none }
  else
    registerAccept st nodeId (wallet.getD "") name ip connectedAt now onChainActive requireReg

/-- The predicate of the claim: when was a register message rejected with an
auth error. -/
def registerRejected (r : RegResult) : Bool :=
  match r.msgs with
  | [OutMsg.authFailed _] => true
  | _ => false

/-! ### Load-balancing router (database.ts lines 695-750) -/

/-- Routing eligibility filter (lines 697-704). -/
def eligibleNode (requireReg : Bool) (now : Nat) (n : ConnectedNode) : Bool :=
  if !requireReg then true
  else if !n.isRegistered then false
  else now - n.lastPing < 120000

/-- Health filter (lines 718-730): a node with at least 5 requests is
dropped when its error rate exceeds 30 percent or its average latency
exceeds 3000 ms. errors / requestsHandled > 0.3 is the exact rational
comparison 10 * errors > 3 * requestsHandled. -/
def nodeHealthy (s : NodeStats) : Bool :=
  if s.requestsHandled < 5 then true
  else if 3 * s.requestsHandled < 10 * s.errors then false
  else if s.avgLatencyMs > 3000 then false
  else true

/-- Effective latency for ranking (lines 736-741): nodes with fewer than 5
requests get a fixed neutral 500 ms. -/
def effectiveLatency (s : NodeStats) : Nat :=
  if s.requestsHandled < 5 then 500 else s.avgLatencyMs

/-- The healthy subset of the candidates. -/
def healthyFilter (nodes : List ConnectedNode) : List ConnectedNode :=
  nodes.filter (fun n => nodeHealthy n.stats)

/-- Fall back to the unfiltered candidates when the health filter empties
the set (line 733). -/
def availPool (nodes : List ConnectedNode) : List ConnectedNode :=
  let healthy := healthyFilter nodes
  if healthy.isEmpty then nodes else healthy

/-- Stable insertion of a node into a list already sorted by effective
latency ascending: a tied node stays after the earlier ones. -/
def insertByLatency (a : ConnectedNode) : List ConnectedNode → List ConnectedNode
  | [] => [a]
  | b :: l => if effectiveLatency a.stats ≤ effectiveLatency b.stats then a :: b :: l
              else b :: insertByLatency a l

/-- Stable sort by effective latency ascending. JS Array.sort with the
numeric comparator of lines 736-741 is a stable sort under a total
preorder, so any stable sort (this insertion sort included) produces the
same list. -/
def sortByLatency : List ConnectedNode → List ConnectedNode
  | [] => []
  | a :: l => insertByLatency a (sortByLatency l)

/-- The fast pool (lines 736-744): sort by effective latency ascending and
take the fastest half, with a floor of 3. -/
def fastPool (nodes : List ConnectedNode) : List ConnectedNode :=
  let avail := availPool nodes
  let sorted := sortByLatency avail
  sorted.take (max 3 ((avail.length + 1) / 2))

/-- One routed call's node selection (lines 695-747): none when no node is
eligible (503), otherwise the chosen node and the advanced round-robin
index. -/
def routeSelect (nodes : List ConnectedNode) (rr : Nat) : Option (ConnectedNode × Nat) :=
  if nodes.isEmpty then none
  else
    let pool := fastPool nodes
    let rr2 := (rr + 1) % pool.length
    match pool.get? rr2 with
    | some n => some (n, rr2)
    | none => none

/-! ### Round-robin index arithmetic (database.ts lines 503 and 746) -/

/-- One advance of the shared round-robin index over a pool of size k. -/
def rrAdvance (k i : Nat) : Nat := (i + 1) % k

/-- The index value after t calls, starting from i0. Call number t (1-based)
selects pool position rrIndexSeq k i0 t. -/
def rrIndexSeq (k i0 : Nat) : Nat → Nat
  | 0 => i0
  | t + 1 => rrAdvance k (rrIndexSeq k i0 t)

/-- How many of the first M calls are assigned to pool position j. -/
def rrAssignCount (k i0 M j : Nat) : Nat :=
  (List.range M).countP (fun t => decide (rrIndexSeq k i0 (t + 1) = j))

/-- Residue-class count: among b, b+1, ..., b+M-1, how many are j mod k. -/
def rrCount (k b M j : Nat) : Nat :=
  (List.range M).countP (fun t => decide ((b + t) % k = j))

/-! ### Node agent cache (node.js lines 120-495) -/

/-- An upstream JSON-RPC response body: whether the parsed value is truthy,
whether it carries a JSON-RPC error field, and an abstract payload identity. -/
structure RpcData where
  payload : Nat
  truthy : Bool
  hasError : Bool
deriving DecidableEq

/-- Outcome of the agent's own upstream call (fetchRPC): a network-level
failure, or a parsed response of some byte size. -/
inductive Upstream where
  | netFail (msg : String)
  | ok (data : RpcData) (size : Nat)
deriving DecidableEq

/-- A cache entry: value, insertion timestamp, byte size (node.js line 455). -/
structure CacheEntry where
  data : RpcData
  ts : Nat
  size : Nat
deriving DecidableEq

/-- NO_CACHE_METHODS (node.js lines 162-170). -/
def noCacheMethods : List String :=
  ["sendTransaction", "sendRawTransaction", "simulateTransaction", "requestAirdrop",
   "getSignatureStatuses", "getRecentPerformanceSamples", "getFeeForMessage"]

/-- CACHE_TTL (node.js lines 125-159), milliseconds. -/
def cacheTTLTable : List (String × Nat) :=
  [("getSlot", 500), ("getBlockHeight", 500), ("getRecentBlockhash", 500),
   ("getLatestBlockhash", 500),
   ("getAccountInfo", 800), ("getBalance", 1500), ("getTokenAccountBalance", 1500),
   ("getTokenAccountsByOwner", 3000), ("getProgramAccounts", 5000),
   ("getMultipleAccounts", 800),
   ("getBlock", 60000), ("getTransaction", 300000), ("getSignaturesForAddress", 5000),
   ("getConfirmedTransaction", 300000),
   ("getEpochInfo", 30000), ("getEpochSchedule", 300000), ("getHealth", 5000),
   ("getVersion", 300000), ("getGenesisHash", 3600000),
   ("getMinimumBalanceForRentExemption", 60000), ("getClusterNodes", 60000),
   ("getVoteAccounts", 30000), ("getSupply", 30000), ("getInflationRate", 60000),
   ("default", 1000)]

/-- CACHE_TTL[method] || CACHE_TTL['default'] (node.js line 431): a missing
or zero (falsy) entry falls back to the 1000 ms default. -/
def cacheTTL (method : String) : Nat :=
  match jget method cacheTTLTable with
  | some v => if v = 0 then 1000 else v
  | none => 1000

/-- CACHE_MAX_SIZE (node.js line 122). -/
def cacheMaxSize : Nat := 5000

/-- Eviction (node.js lines 458-466): once the entry count exceeds the
ceiling, delete the oldest 10 percent in insertion order. -/
def evictIfNeeded (c : List (String × CacheEntry)) : List (String × CacheEntry) :=
  if c.length > cacheMaxSize then c.drop (cacheMaxSize / 10) else c

/-- What one handled request produced: the response fields sent back in the
rpc_response frame, whether the cache answered, whether the upstream RPC
was called, and the cache afterwards. -/
structure HandleResult where
  result : Option RpcData
  error : Option String
  cached : Bool
  usedUpstream : Bool
  cacheAfter : List (String × CacheEntry)
deriving DecidableEq

/-- The cache probe of handleRequest (node.js lines 430-444): a deny-listed
method is never looked up; otherwise the entry under the exact
method + ':' + serialized-params key counts only while its age is strictly
below the method's TTL. -/
def cacheLookup (ttlOf : String → Nat) (method params : String) (now : Nat)
    (cache : List (String × CacheEntry)) : Option CacheEntry :=
  if noCacheMethods.contains method then none
  else
    match jget (method ++ ":" ++ params) cache with
    | some e => if now - e.ts < ttlOf method then some e else none
    | none => none

/-- handleRequest (node.js lines 420-495), parametric in the resolved
per-method TTL function (instantiated with cacheTTL for the shipped table).
A hit answers from the cache without an upstream call; a miss calls
upstream, and only a truthy, non-error response from a cacheable method is
stored (then size-bound evicted). -/
def handleRequest (ttlOf : String → Nat) (method params : String) (now : Nat)
    (cache : List (String × CacheEntry)) (upstream : Upstream) : HandleResult :=
  match cacheLookup ttlOf method params now cache with
  | some e =>
      { result := some e.data, error := none, cached := true, usedUpstream := false,
        cacheAfter := cache }
  | none =>
      match upstream with
      | Upstream.netFail m =>
          { result := none, error := some m, cached := false, usedUpstream := true,
            cacheAfter := cache }
      | Upstream.ok d sz =>
          let cache2 :=
            if !(noCacheMethods.contains method) && d.truthy && !d.hasError then
              evictIfNeeded (jset (method ++ ":" ++ params)
                { data := d, ts := now, size := sz } cache)
            else cache
          { result := some d, error := none, cached := false, usedUpstream := true,
            cacheAfter := cache2 }

/-! ### Stats store transition system (for the monotonicity claim)

The wallet-stats map lives in memory; the durable store holds the snapshot
written by the last saveWalletStats. Every in-memory write in the source
goes through persistWalletStats (per-request path and register takeover) or
the close handler; saveWalletStats copies memory to the store; a crash and
restart reloads memory from the store. -/

structure StoreState where
  mem : List (String × PersistedStats)
  dbv : List (String × PersistedStats)
deriving DecidableEq

inductive StatsOp where
  /-- persistWalletStats from the routed-request path (success or error). -/
  | request (wallet : String) (stats : NodeStats) (connectedAt now : Nat)
  /-- persistWalletStats from the register takeover of an old connection. -/
  | takeover (wallet : String) (old : ConnectedNode) (now : Nat)
  /-- a socket close event. -/
  | closeEvt (n : ConnectedNode) (now : Nat)
  /-- saveWalletStats: write the in-memory map to the durable store. -/
  | save
  /-- crash and restart: reload the in-memory map from the durable store. -/
  | restart
deriving DecidableEq

def applyStatsOp (st : StoreState) : StatsOp → StoreState
  | StatsOp.request w s c t => { st with mem := persistWalletStats w s c t st.mem }
  | StatsOp.takeover w old t =>
      { st with mem := persistWalletStats w old.stats old.connectedAt t st.mem }
  | StatsOp.closeEvt n t => { st with mem := closeMergeStats n t st.mem }
  | StatsOp.save => { st with dbv := st.mem }
  | StatsOp.restart => { st with mem := st.dbv }

def applyStatsOps (st : StoreState) : List StatsOp → StoreState
  | [] => st
  | op :: rest => applyStatsOps (applyStatsOp st op) rest

/-- The requestsHandled counter recorded for a wallet (0 when absent). -/
def getReq (ws : List (String × PersistedStats)) (w : String) : Nat :=
  match jget w ws with
  | some p => p.requestsHandled
  | none => 0

/-- The totalUptime recorded for a wallet. -/
def getUptime (ws : List (String × PersistedStats)) (w : String) : Option Nat :=
  (jget w ws).map PersistedStats.totalUptime

/-- The durable store never lags ahead of memory: every stored entry's
requestsHandled is at most the in-memory value. Holds initially (both
empty) and is preserved by every operation. -/
def StoreInv (st : StoreState) : Prop :=
  ∀ w, getReq st.dbv w ≤ getReq st.mem w

/-! ### Concrete fixtures used by the scenario claims -/

/-- Node A of the router scenario: 10 requests, 0 errors, 50 ms. -/
def statsA : NodeStats :=
  { requestsHandled := 10, avgLatencyMs := 50, cacheHits := 0, cacheMisses := 0, errors := 0 }

/-- Node B of the router scenario: 10 requests, 4 errors, 40 ms. -/
def statsB : NodeStats :=
  { requestsHandled := 10, avgLatencyMs := 40, cacheHits := 0, cacheMisses := 0, errors := 4 }

def nodeA : ConnectedNode :=
  { id := "a", operator := "walletA", name := "A", isRegistered := true,
    connectedAt := 0, lastPing := 0, ip := "1.1.1.1", stats := statsA }

def nodeB : ConnectedNode :=
  { id := "b", operator := "walletB", name := "B", isRegistered := true,
    connectedAt := 0, lastPing := 0, ip := "2.2.2.2", stats := statsB }


/-! ## Association list lemmas -/

theorem jget_jset_self {α : Type} (k : String) (v : α) (l : List (String × α)) :
    jget k (jset k v l) = some v := by
  induction l with
  | nil => simp [jget, jset]
  | cons hd tl ih =>
    by_cases h : hd.1 = k
    · simp [jset, h, jget]
    · simp [jset, h, jget, ih]

theorem jget_jset_ne {α : Type} (k k2 : String) (v : α) (l : List (String × α))
    (h : k2 ≠ k) : jget k2 (jset k v l) = jget k2 l := by
  induction l with
  | nil => simp [jget, jset, h.symm]
  | cons hd tl ih =>
    obtain ⟨k1, v1⟩ := hd
    by_cases hh : k1 = k
    · subst hh
      simp [jset, jget, h.symm]
    · simp only [jset, hh, if_false, jget]
      by_cases h3 : k1 = k2 <;> simp [h3, ih]

theorem jget_jdel_ne {α : Type} (k k2 : String) (l : List (String × α))
    (h : k2 ≠ k) : jget k2 (jdel k l) = jget k2 l := by
  induction l with
  | nil => simp [jdel]
  | cons hd tl ih =>
    obtain ⟨k1, v1⟩ := hd
    by_cases hh : k1 = k
    · subst hh
      simp [jdel, jget, h.symm]
    · simp only [jdel, hh, if_false, jget]
      by_cases h3 : k1 = k2 <;> simp [h3, ih]

theorem jget_eq_none_of_not_mem_keys {α : Type} (k : String) (l : List (String × α))
    (h : k ∉ l.map Prod.fst) : jget k l = none := by
  induction l with
  | nil => rfl
  | cons hd tl ih =>
    simp only [List.map_cons, List.mem_cons] at h
    push_neg at h
    simp [jget, Ne.symm h.1, ih h.2]

theorem jget_jdel_self {α : Type} (k : String) (l : List (String × α))
    (h : keysNodup l) : jget k (jdel k l) = none := by
  induction l with
  | nil => rfl
  | cons hd tl ih =>
    unfold keysNodup at h
    simp only [List.map_cons, List.nodup_cons] at h
    by_cases hh : hd.1 = k
    · subst hh
      simpa [jdel] using jget_eq_none_of_not_mem_keys hd.1 tl h.1
    · simp [jdel, hh, jget, ih h.2]

theorem mem_keys_jset {α : Type} (a k : String) (v : α) (l : List (String × α)) :
    a ∈ (jset k v l).map Prod.fst ↔ a = k ∨ a ∈ l.map Prod.fst := by
  induction l with
  | nil => simp [jset]
  | cons hd tl ih =>
    obtain ⟨k1, v1⟩ := hd
    by_cases hh : k1 = k
    · subst hh
      have step : jset k1 v ((k1, v1) :: tl) = (k1, v) :: tl := by simp [jset]
      rw [step]
      simp only [List.map_cons, List.mem_cons]
      tauto
    · simp only [jset, hh, if_false, List.map_cons, List.mem_cons, ih]
      tauto

theorem keysNodup_jset {α : Type} (k : String) (v : α) (l : List (String × α))
    (h : keysNodup l) : keysNodup (jset k v l) := by
  induction l with
  | nil => simp [keysNodup, jset]
  | cons hd tl ih =>
    unfold keysNodup at h ⊢
    simp only [List.map_cons, List.nodup_cons] at h
    by_cases hh : hd.1 = k
    · subst hh
      simpa [jset] using h
    · simp only [jset, hh, if_false, List.map_cons, List.nodup_cons]
      refine ⟨?_, ih h.2⟩
      intro hmem
      rcases (mem_keys_jset hd.1 k v tl).mp hmem with h1 | h2
      · exact hh h1
      · exact h.1 h2

theorem jset_length_le {α : Type} (k : String) (v : α) (l : List (String × α)) :
    (jset k v l).length ≤ l.length + 1 := by
  induction l with
  | nil => simp [jset]
  | cons hd tl ih =>
    by_cases hh : hd.1 = k
    · simp [jset, hh]
    · simp only [jset, hh, if_false, List.length_cons]
      omega

/-! ## Monotonicity of the persisted requestsHandled counter -/

theorem getReq_persist_ge (w2 w : String) (s : NodeStats) (c t : Nat)
    (ws : List (String × PersistedStats)) :
    getReq ws w2 ≤ getReq (persistWalletStats w s c t ws) w2 := by
  by_cases h : w2 = w
  · subst h
    unfold persistWalletStats getReq
    cases hj : jget w2 ws with
    | none => simp [jget_jset_self]
    | some e => simp [hj, jget_jset_self]
  · unfold persistWalletStats getReq
    cases hj : jget w ws with
    | none => rw [jget_jset_ne w w2 _ ws h]
    | some e => rw [jget_jset_ne w w2 _ ws h]

theorem getReq_closeMerge_ge (w2 : String) (n : ConnectedNode) (t : Nat)
    (ws : List (String × PersistedStats)) :
    getReq ws w2 ≤ getReq (closeMergeStats n t ws) w2 := by
  unfold closeMergeStats getReq
  by_cases h : w2 = n.operator
  · cases hj : jget n.operator ws with
    | none =>
      rw [h]
      simp [hj, jget_jset_self]
    | some e =>
      rw [h]
      simp [hj, jget_jset_self]
  · cases hj : jget n.operator ws with
    | none =>
      simp only [hj]
      rw [jget_jset_ne n.operator w2 _ ws h]
    | some e =>
      simp only [hj]
      rw [jget_jset_ne n.operator w2 _ ws h]

theorem c4_step (st : StoreState) (op : StatsOp) (h : StoreInv st) :
    StoreInv (applyStatsOp st op) ∧
    ∀ w, getReq st.dbv w ≤ getReq (applyStatsOp st op).dbv w := by
  cases op with
  | request w2 s c t =>
    refine ⟨fun w => le_trans (h w) (getReq_persist_ge w w2 s c t st.mem), fun w => le_refl _⟩
  | takeover w2 old t =>
    exact ⟨fun w => le_trans (h w) (getReq_persist_ge w w2 old.stats old.connectedAt t st.mem),
      fun w => le_refl _⟩
  | closeEvt n t =>
    exact ⟨fun w => le_trans (h w) (getReq_closeMerge_ge w n t st.mem), fun w => le_refl _⟩
  | save => exact ⟨fun w => le_refl _, fun w => h w⟩
  | restart => exact ⟨fun w => le_refl _, fun w => le_refl _⟩


/-! ## Claim C4: requestsHandled is non-decreasing -/

/-- Claim C4: for every wallet, the persisted WalletStats.requestsHandled
counter is non-decreasing across any sequence of per-request persistence
calls, register takeovers, disconnects, periodic or shutdown saves, and
crash restarts that reload from the durable store; every merge from a live
connection takes the maximum of the existing and session values and never
overwrites downward. -/
theorem c4_requests_monotone (ops : List StatsOp) (st : StoreState) (h : StoreInv st) :
    StoreInv (applyStatsOps st ops) ∧
    ∀ w, getReq st.dbv w ≤ getReq (applyStatsOps st ops).dbv w := by
  induction ops generalizing st with
  | nil => exact ⟨h, fun w => le_refl _⟩
  | cons op rest ih =>
    obtain ⟨h1, h2⟩ := c4_step st op h
    obtain ⟨h3, h4⟩ := ih (applyStatsOp st op) h1
    exact ⟨h3, fun w => le_trans (h2 w) (h4 w)⟩

/-- Witness for C4 at a concrete run: a request is persisted, saved, the
hub crashes and reloads, the session closes, and the result is saved. -/
theorem c4_requests_monotone_witness :
    getReq (StoreState.mk [] []).dbv "walletA" ≤
      getReq (applyStatsOps (StoreState.mk [] [])
        [StatsOp.request "walletA" statsA 0 1000, StatsOp.save, StatsOp.restart,
         StatsOp.closeEvt nodeA 5000, StatsOp.save]).dbv "walletA" :=
  (c4_requests_monotone
    [StatsOp.request "walletA" statsA 0 1000, StatsOp.save, StatsOp.restart,
     StatsOp.closeEvt nodeA 5000, StatsOp.save]
    (StoreState.mk [] []) (fun _ => Nat.le_refl 0)).2 "walletA"

/-! ## Claim C1: totalUptime accounting -/

/-- The session counters of the C1 failing run after its one routed
request. -/
def c1Stats : NodeStats :=
  { requestsHandled := 1, avgLatencyMs := 50, cacheHits := 1, cacheMisses := 0, errors := 0 }

/-- The C1 connection: a fresh wallet W that connected at t = 0 ms. -/
def c1Node : ConnectedNode :=
  { id := "n1", operator := "W", name := "N", isRegistered := true,
    connectedAt := 0, lastPing := 0, ip := "1.1.1.1", stats := c1Stats }

/-- Claim C1 (code bug): for a wallet with no persisted entry, the
per-request persistence path itself seeds totalUptime with the elapsed
session time (10 s at the t = 10000 ms request), and the close handler then
adds the whole session duration again, so a single 20-second session is
recorded as 30 seconds of uptime, not the session duration of 20 seconds
claimed by the spec and by the code's own no-double-count comments. -/
theorem c1_uptime_double_counted :
    getUptime (persistWalletStats "W" c1Stats 0 10000 []) "W" = some 10 ∧
    getUptime (closeMergeStats c1Node 20000 (persistWalletStats "W" c1Stats 0 10000 [])) "W"
      = some 30 ∧
    (20000 - 0) / 1000 = 20 := by
  decide


/-! ## Registration lemmas -/

theorem takeoverStep_none (st : HubState) (nodeId wallet : String) (now : Nat)
    (h : jget wallet st.nodesByWallet = none) :
    takeoverStep st nodeId wallet now = (st, none) := by
  unfold takeoverStep
  rw [h]

theorem takeoverStep_some (st : HubState) (nodeId wallet : String) (now : Nat)
    (oldId : String) (oldNode : ConnectedNode)
    (h1 : jget wallet st.nodesByWallet = some oldId) (h2 : oldId ≠ nodeId)
    (h3 : jget oldId st.connectedNodes = some oldNode) :
    takeoverStep st nodeId wallet now =
      ({ st with
         walletStats := persistWalletStats wallet oldNode.stats oldNode.connectedAt now
           st.walletStats
         connectedNodes := jdel oldId st.connectedNodes }, some oldNode) := by
  unfold takeoverStep
  rw [h1]
  simp [h2, h3]

theorem persist_flush (w : String) (s : NodeStats) (c t : Nat)
    (ws : List (String × PersistedStats)) :
    ∃ q, jget w (persistWalletStats w s c t ws) = some q ∧
      s.requestsHandled ≤ q.requestsHandled ∧ s.cacheHits ≤ q.cacheHits ∧
      s.cacheMisses ≤ q.cacheMisses ∧ s.errors ≤ q.errors := by
  unfold persistWalletStats
  cases hj : jget w ws with
  | none =>
    refine ⟨_, jget_jset_self w _ ws, ?_, ?_, ?_, ?_⟩ <;> simp
  | some e =>
    refine ⟨_, jget_jset_self w _ ws, ?_, ?_, ?_, ?_⟩ <;> simp [le_max_right]

/-! ## Claim C2: newest connection wins -/

/-- Claim C2 (amended): when a register message arrives for a wallet whose
index entry points at a different live connection, that old connection's
session counters are max-merged into WalletStats and it is removed from the
connection registry before the new connection is inserted, and immediately
after registration the wallet index maps the wallet to the new connection.
However, when the old socket's close event later fires, the handler deletes
the wallet from the wallet index outright, so the index no longer maps the
wallet to the new connection (the new connection survives only in the
connection registry). -/
theorem c2_takeover_amended (st : HubState) (newId w : String) (name : Option String)
    (ip : String) (cAt now : Nat) (onChain : Option Bool) (reqReg : Bool)
    (oldId : String) (oldNode : ConnectedNode)
    (hw : w ≠ "")
    (hnodupW : keysNodup st.nodesByWallet)
    (hnodupC : keysNodup st.connectedNodes)
    (hold : jget w st.nodesByWallet = some oldId)
    (hne : oldId ≠ newId)
    (holdNode : jget oldId st.connectedNodes = some oldNode)
    (hid : oldNode.id = oldId)
    (hop : oldNode.operator = w) :
    (registerAccept st newId w name ip cAt now onChain reqReg).closedOld = some oldNode ∧
    jget oldId
      (registerAccept st newId w name ip cAt now onChain reqReg).state.connectedNodes
      = none ∧
    (∃ q, jget w (registerAccept st newId w name ip cAt now onChain reqReg).state.walletStats
        = some q ∧
      oldNode.stats.requestsHandled ≤ q.requestsHandled ∧
      oldNode.stats.cacheHits ≤ q.cacheHits ∧
      oldNode.stats.cacheMisses ≤ q.cacheMisses ∧
      oldNode.stats.errors ≤ q.errors) ∧
    jget w (registerAccept st newId w name ip cAt now onChain reqReg).state.nodesByWallet
      = some newId ∧
    (∃ nd, jget newId
        (registerAccept st newId w name ip cAt now onChain reqReg).state.connectedNodes
        = some nd ∧ nd.operator = w ∧ nd.id = newId) ∧
    ∀ t2,
      jget w (closeHandle oldNode t2
        (registerAccept st newId w name ip cAt now onChain reqReg).state).nodesByWallet
        = none ∧
      jget newId (closeHandle oldNode t2
        (registerAccept st newId w name ip cAt now onChain reqReg).state).connectedNodes
        = jget newId
          (registerAccept st newId w name ip cAt now onChain reqReg).state.connectedNodes := by
  have htk := takeoverStep_some st newId w now oldId oldNode hold hne holdNode
  simp only [registerAccept, htk]
  refine ⟨trivial, ?_, ?_, ?_, ?_, ?_⟩
  · rw [jget_jset_ne newId oldId _ _ hne]
    exact jget_jdel_self oldId _ hnodupC
  · exact persist_flush w oldNode.stats oldNode.connectedAt now st.walletStats
  · exact jget_jset_self w newId st.nodesByWallet
  · exact ⟨_, jget_jset_self newId _ _, rfl, rfl⟩
  · intro t2
    unfold closeHandle
    rw [hop]
    simp only [hw, if_false]
    constructor
    · exact jget_jdel_self w _ (keysNodup_jset w newId st.nodesByWallet hnodupW)
    · rw [hid]
      exact jget_jdel_ne oldId newId _ (Ne.symm hne)

/-- Witness for C2 (amended) at a concrete two-connection takeover. -/
theorem c2_takeover_amended_witness :
    jget "n1"
      (registerAccept
        (HubState.mk [("n1", c1Node)] [("W", "n1")] []) "n2" "W" none "1.1.1.1" 1000 1000
        (some true) true).state.connectedNodes = none :=
  (c2_takeover_amended
    (HubState.mk [("n1", c1Node)] [("W", "n1")] []) "n2" "W" none "1.1.1.1" 1000 1000
    (some true) true "n1" c1Node (by decide) (by decide) (by decide) (by decide)
    (by decide) (by decide) (by decide) (by decide)).2.1

/-- The hub state after node n1 registers wallet W on an empty hub. -/
def c2State1 : HubState :=
  (registerAccept (HubState.mk [] [] []) "n1" "W" none "1.1.1.1" 0 0 (some true) true).state

/-- Node n2 registers the same wallet W, taking over from n1. -/
def c2Reg2 : RegResult :=
  registerAccept c2State1 "n2" "W" none "1.1.1.1" 1000 1000 (some true) true

/-- The old connection object n1 whose socket the takeover closed. -/
def c2Old : ConnectedNode := (c2Reg2.closedOld).getD c1Node

/-- The hub state after the old socket's close event fires at t = 2000. -/
def c2State3 : HubState := closeHandle c2Old 2000 c2Reg2.state

/-- Counterexample to claim C2 as stated: after the takeover (which did map
W to the new connection n2), the old socket's close event deletes W from
the wallet index entirely, so the index does not map W to n2 any more even
though n2 is still registered; a third registration for W then finds no old
connection to take over and leaves two live connections for the same wallet
in the registry, violating the at-most-one-active-connection invariant. -/
theorem c2_counterexample :
    c2Reg2.closedOld = some c2Old ∧
    jget "W" c2Reg2.state.nodesByWallet = some "n2" ∧
    jget "W" c2State3.nodesByWallet = none ∧
    (jget "n2" c2State3.connectedNodes).isSome = true ∧
    (registerAccept c2State3 "n3" "W" none "1.1.1.1" 3000 3000
      (some true) true).state.connectedNodes.countP
        (fun kv => kv.2.operator == "W") = 2 := by
  decide


/-! ## Claim C9: source-address change resets only the penalty counters -/

/-- Claim C9: when an operator reconnects from a source address different
from the last one recorded, the seeded performance counters avgLatencyMs
and errors are reset to zero, while requestsHandled, cacheHits,
cacheMisses, and the persisted totalUptime are preserved unchanged from the
wallet's persisted stats. -/
theorem c9_ip_change_reset (st : HubState) (newId w : String) (name : Option String)
    (ip : String) (cAt now : Nat) (onChain : Option Bool) (reqReg : Bool)
    (p : PersistedStats) (ip0 : String)
    (hp : jget w st.walletStats = some p)
    (hip : p.lastIP = some ip0) (hne : ip0 ≠ ip)
    (hno : jget w st.nodesByWallet = none) :
    (registerAccept st newId w name ip cAt now onChain reqReg).state.walletStats
      = st.walletStats ∧
    ∃ nd, jget newId
        (registerAccept st newId w name ip cAt now onChain reqReg).state.connectedNodes
        = some nd ∧
      nd.stats.avgLatencyMs = 0 ∧ nd.stats.errors = 0 ∧
      nd.stats.requestsHandled = p.requestsHandled ∧
      nd.stats.cacheHits = p.cacheHits ∧ nd.stats.cacheMisses = p.cacheMisses ∧
      getUptime (registerAccept st newId w name ip cAt now onChain reqReg).state.walletStats w
        = some p.totalUptime := by
  have htk := takeoverStep_none st newId w now hno
  simp only [registerAccept, htk]
  refine ⟨trivial, regNode st newId w name ip cAt onChain reqReg,
    jget_jset_self newId _ st.connectedNodes, ?_, ?_, ?_, ?_, ?_, ?_⟩
  all_goals simp [regNode, seedStats, hp, hip, hne, getUptime]

/-- Witness for C9: wallet W last seen from 1.1.1.1 reconnects from 2.2.2.2. -/
theorem c9_ip_change_reset_witness :
    (registerAccept
      (HubState.mk [] []
        [("W", PersistedStats.mk 7 120 3 2 4 99 500 0 (some "1.1.1.1"))])
      "n2" "W" none "2.2.2.2" 6000 6000 (some true) true).state.walletStats
      = [("W", PersistedStats.mk 7 120 3 2 4 99 500 0 (some "1.1.1.1"))] :=
  (c9_ip_change_reset
    (HubState.mk [] [] [("W", PersistedStats.mk 7 120 3 2 4 99 500 0 (some "1.1.1.1"))])
    "n2" "W" none "2.2.2.2" 6000 6000 (some true) true
    (PersistedStats.mk 7 120 3 2 4 99 500 0 (some "1.1.1.1")) "1.1.1.1"
    (by decide) (by decide) (by decide) (by decide)).1

/-! ## Claim C10: unregistered wallets are indexed but not routed -/

theorem regPreMsgs_cases (o : Option Bool) (r : Bool) :
    regPreMsgs o r = [] ∨ regPreMsgs o r = [OutMsg.notRegistered] := by
  unfold regPreMsgs regAcct
  cases r with
  | false => simp
  | true =>
    cases o with
    | none => simp
    | some b => cases b <;> simp

theorem registerRejected_accept_false (st : HubState) (nodeId wallet : String)
    (name : Option String) (ip : String) (cAt now : Nat) (onChain : Option Bool)
    (reqReg : Bool) :
    registerRejected (registerAccept st nodeId wallet name ip cAt now onChain reqReg)
      = false := by
  rcases regPreMsgs_cases onChain reqReg with h | h <;>
    simp [registerRejected, registerAccept, h]

/-- Claim C10: with registration required, a register that passes
authentication for a wallet that is not active on-chain gets a
not_registered message followed by a registered acknowledgment on the same
socket, and the connection is inserted into both the connection registry
and the wallet index with isRegistered false, so it is present in the
registry but excluded by the routing eligibility filter. -/
theorem c10_unregistered_included (st : HubState) (nodeId w : String)
    (name : Option String) (s : String) (timestamp : Option Nat) (ip : String)
    (cAt now : Nat) (onChain : Option Bool)
    (hw : w ≠ "")
    (hsig : verifySignature timestamp now s = true)
    (hoc : onChain = none ∨ onChain = some false) :
    (registerHandle st nodeId (some w) name (some s) timestamp ip cAt now onChain true).msgs
      = [OutMsg.notRegistered, OutMsg.registered false] ∧
    ∃ nd, jget nodeId
        (registerHandle st nodeId (some w) name (some s) timestamp ip cAt now
          onChain true).state.connectedNodes = some nd ∧
      nd.isRegistered = false ∧ nd.operator = w ∧
      jget w (registerHandle st nodeId (some w) name (some s) timestamp ip cAt now
        onChain true).state.nodesByWallet = some nodeId ∧
      ∀ t2, eligibleNode true t2 nd = false := by
  have hAccept : registerHandle st nodeId (some w) name (some s) timestamp ip cAt now
      onChain true = registerAccept st nodeId w name ip cAt now onChain true := by
    simp [registerHandle, jsTruthyStr, hw, hsig]
  rw [hAccept]
  have hreg : regIsReg onChain true = false := by
    rcases hoc with h | h <;> subst h <;> rfl
  have hpre : regPreMsgs onChain true = [OutMsg.notRegistered] := by
    rcases hoc with h | h <;> subst h <;> rfl
  constructor
  · show regPreMsgs onChain true ++ [OutMsg.registered (regIsReg onChain true)] = _
    rw [hreg, hpre]
    rfl
  · refine ⟨regNode (takeoverStep st nodeId w now).1 nodeId w name ip cAt onChain true,
      jget_jset_self nodeId _ _, ?_, rfl, jget_jset_self w nodeId _, ?_⟩
    · simp [regNode, hreg]
    · intro t2
      simp [eligibleNode, regNode, hreg]

/-- Witness for C10: an inactive on-chain wallet registering on an empty
hub with a well-formed signature. -/
theorem c10_unregistered_included_witness :
    (registerHandle (HubState.mk [] [] []) "n1" (some "W") none
      (some "0123456789abcdef0123456789abcdef0123456789abcdef0123456789abcdef")
      (some 1000) "1.1.1.1" 1000 1000 (some false) true).msgs
      = [OutMsg.notRegistered, OutMsg.registered false] :=
  (c10_unregistered_included (HubState.mk [] [] []) "n1" "W" none
    "0123456789abcdef0123456789abcdef0123456789abcdef0123456789abcdef"
    (some 1000) "1.1.1.1" 1000 1000 (some false)
    (by decide) (by decide) (Or.inr rfl)).1


/-! ## Claim C3: authentication gate -/

/-- Counterexample to claim C3 as stated: with registration required, a
register message whose signature field is missing and whose timestamp is
far more than 5 minutes stale is NOT rejected; the signature (and with it
the timestamp) check is skipped entirely because the signature field is
falsy, the connection is accepted and registry state is created. -/
theorem c3_counterexample :
    registerRejected (registerHandle (HubState.mk [] [] []) "id1" (some "WalletX") none none
      (some 0) "1.1.1.1" 10000000 10000000 (some true) true) = false ∧
    jget "WalletX" (registerHandle (HubState.mk [] [] []) "id1" (some "WalletX") none none
      (some 0) "1.1.1.1" 10000000 10000000 (some true) true).state.nodesByWallet
      = some "id1" := by
  decide

/-- Claim C3 (amended): the hub rejects a register message with an auth
error, creating no registry state and closing no other socket, if and only
if the wallet field is absent or empty, or else registration is required,
the signature field is present and nonempty, and either the timestamp is
present and more than 5 minutes from server time or the signature fails the
64-hex-character format check. In particular a register with a present but
malformed signature is refused when registration is required, while one
with a missing or empty signature bypasses both the signature and the
timestamp check. -/
theorem c3_auth_amended (st : HubState) (nodeId : String)
    (wallet name signature : Option String) (timestamp : Option Nat) (ip : String)
    (cAt now : Nat) (onChain : Option Bool) (reqReg : Bool) :
    (registerRejected (registerHandle st nodeId wallet name signature timestamp ip cAt now
        onChain reqReg) = true ↔
      (jsTruthyStr wallet = false ∨
        (reqReg = true ∧ jsTruthyStr signature = true ∧
          ((∃ t, timestamp = some t ∧ 5 * 60 * 1000 < (if t ≤ now then now - t else t - now)) ∨
            sigFormatOk (signature.getD "") = false)))) ∧
    (registerRejected (registerHandle st nodeId wallet name signature timestamp ip cAt now
        onChain reqReg) = true →
      (registerHandle st nodeId wallet name signature timestamp ip cAt now
        onChain reqReg).state = st ∧
      (registerHandle st nodeId wallet name signature timestamp ip cAt now
        onChain reqReg).closedOld = none) := by
  by_cases hw : jsTruthyStr wallet = true
  · by_cases hc : (reqReg && jsTruthyStr signature &&
        !(verifySignature timestamp now (signature.getD ""))) = true
    · have hR : registerHandle st nodeId wallet name signature timestamp ip cAt now
          onChain reqReg =
          { state := st, msgs := [OutMsg.authFailed "Invalid signature"],
            closedOld := none } := by
        simp [registerHandle, hw, hc]
      rw [hR]
      refine ⟨?_, fun _ => ⟨rfl, rfl⟩⟩
      simp only [registerRejected, true_iff]
      right
      simp only [Bool.and_eq_true, Bool.not_eq_true'] at hc
      obtain ⟨⟨h1, h2⟩, h3⟩ := hc
      refine ⟨h1, h2, ?_⟩
      cases ts : timestamp with
      | none =>
        rw [ts] at h3
        simp only [verifySignature] at h3
        exact Or.inr h3
      | some t =>
        rw [ts] at h3
        simp only [verifySignature] at h3
        by_cases hwnd : (if t ≤ now then now - t else t - now) > 5 * 60 * 1000
        · exact Or.inl ⟨t, rfl, hwnd⟩
        · rw [if_neg hwnd] at h3
          exact Or.inr h3
    · have hR : registerHandle st nodeId wallet name signature timestamp ip cAt now
          onChain reqReg =
          registerAccept st nodeId (wallet.getD "") name ip cAt now onChain reqReg := by
        simp [registerHandle, hw, hc]
      rw [hR]
      rw [registerRejected_accept_false st nodeId (wallet.getD "") name ip cAt now
        onChain reqReg]
      refine ⟨?_, fun h => absurd h (by simp)⟩
      constructor
      · intro h
        exact absurd h (by simp)
      · intro hC
        exfalso
        rcases hC with h1 | ⟨h1, h2, h3⟩
        · rw [hw] at h1
          cases h1
        · have hv : verifySignature timestamp now (signature.getD "") = true := by
            by_contra hvf
            have hvf2 : verifySignature timestamp now (signature.getD "") = false := by
              cases hb : verifySignature timestamp now (signature.getD "")
              · rfl
              · exact absurd hb hvf
            exact hc (by simp [h1, h2, hvf2])
          rcases h3 with ⟨t, ht, hwnd⟩ | hfmt
          · rw [ht] at hv
            simp only [verifySignature] at hv
            rw [if_pos hwnd] at hv
            cases hv
          · cases ts : timestamp with
            | none =>
              rw [ts] at hv
              simp only [verifySignature] at hv
              rw [hfmt] at hv
              cases hv
            | some t =>
              rw [ts] at hv
              simp only [verifySignature] at hv
              by_cases hwnd : (if t ≤ now then now - t else t - now) > 5 * 60 * 1000
              · rw [if_pos hwnd] at hv
                cases hv
              · rw [if_neg hwnd, hfmt] at hv
                cases hv
  · have hwf : jsTruthyStr wallet = false := by
      cases hb : jsTruthyStr wallet
      · rfl
      · exact absurd hb hw
    have hR : registerHandle st nodeId wallet name signature timestamp ip cAt now
        onChain reqReg =
        { state := st, msgs := [OutMsg.authFailed "Wallet address required"],
          closedOld := none } := by
      simp [registerHandle, hwf]
    rw [hR]
    refine ⟨?_, fun _ => ⟨rfl, rfl⟩⟩
    simp only [registerRejected, true_iff]
    exact Or.inl hwf

/-- Witness for C3 (amended): a present but malformed signature is refused
when registration is required. -/
theorem c3_auth_amended_witness :
    registerRejected (registerHandle (HubState.mk [] [] []) "id1" (some "WalletX") none
      (some "v2") (some 1000) "1.1.1.1" 1000 1000 (some true) true) = true :=
  (c3_auth_amended (HubState.mk [] [] []) "id1" (some "WalletX") none
    (some "v2") (some 1000) "1.1.1.1" 1000 1000 (some true) true).1.mpr
    (Or.inr ⟨rfl, by decide, Or.inr (by decide)⟩)


/-! ## Claim C5: health filter and the two-node scenario -/

/-- Claim C5: the health filter drops an eligible candidate exactly when it
has handled at least 5 requests and its error rate exceeds 30 percent or
its average latency exceeds 3000 ms; an emptied filter falls back to the
unfiltered candidates; and with exactly the two registered active nodes A
(0 errors / 10 requests, 50 ms) and B (4 errors / 10 requests, 40 ms),
every routed call selects A, in either arrival order and for every value of
the shared round-robin index. -/
theorem c5_health_filter_scenario :
    (∀ s : NodeStats, nodeHealthy s = false ↔
      (5 ≤ s.requestsHandled ∧
        (3 * s.requestsHandled < 10 * s.errors ∨ 3000 < s.avgLatencyMs))) ∧
    (∀ nodes : List ConnectedNode, healthyFilter nodes = [] → availPool nodes = nodes) ∧
    (∀ rr : Nat,
      routeSelect ([nodeA, nodeB].filter (eligibleNode true 1000)) rr = some (nodeA, 0) ∧
      routeSelect ([nodeB, nodeA].filter (eligibleNode true 1000)) rr = some (nodeA, 0)) := by
  refine ⟨?_, ?_, ?_⟩
  · intro s
    unfold nodeHealthy
    split_ifs with h1 h2 h3 <;> simp <;> omega
  · intro nodes h
    unfold availPool
    simp [h]
  · intro rr
    have hfil1 : ([nodeA, nodeB].filter (eligibleNode true 1000)) = [nodeA, nodeB] := by
      decide
    have hfil2 : ([nodeB, nodeA].filter (eligibleNode true 1000)) = [nodeB, nodeA] := by
      decide
    have hfp1 : fastPool [nodeA, nodeB] = [nodeA] := by decide
    have hfp2 : fastPool [nodeB, nodeA] = [nodeA] := by decide
    rw [hfil1, hfil2]
    constructor
    · simp [routeSelect, hfp1, Nat.mod_one]
    · simp [routeSelect, hfp2, Nat.mod_one]

/-- Witness for C5: the fallback clause applied to the singleton list
holding only the unhealthy node B. -/
theorem c5_health_filter_scenario_witness :
    availPool [nodeB] = [nodeB] :=
  c5_health_filter_scenario.2.1 [nodeB] (by decide)


/-! ## Claim C6: round-robin fairness -/

theorem rrIndexSeq_closed (k i0 : Nat) (t : Nat) :
    rrIndexSeq k i0 (t + 1) = (i0 + 1 + t) % k := by
  induction t with
  | zero => simp [rrIndexSeq, rrAdvance]
  | succ t ih =>
    show rrAdvance k (rrIndexSeq k i0 (t + 1)) = (i0 + 1 + (t + 1)) % k
    rw [ih]
    unfold rrAdvance
    rw [Nat.mod_add_mod]
    rfl

theorem countP_decide_eq_one_range (n t0 : Nat) (h : t0 < n) :
    (List.range n).countP (fun t => decide (t = t0)) = 1 := by
  induction n with
  | zero => omega
  | succ m ih =>
    rw [List.range_succ, List.countP_append]
    by_cases hm : t0 = m
    · subst hm
      have h0 : (List.range t0).countP (fun t => decide (t = t0)) = 0 := by
        rw [List.countP_eq_zero]
        intro a ha
        rw [List.mem_range] at ha
        simp only [decide_eq_true_eq]
        omega
      rw [h0]
      simp
    · have ht : t0 < m := by omega
      rw [ih ht]
      simp [List.countP_cons, hm, Ne.symm hm]

theorem rrWindow (k c j : Nat) (hk : 0 < k) (hj : j < k) :
    (List.range k).countP (fun t => decide ((c + t) % k = j)) = 1 := by
  have ha : c % k < k := Nat.mod_lt _ hk
  set t0 := if c % k ≤ j then j - c % k else j + k - c % k with ht0
  have ht0k : t0 < k := by
    rw [ht0]
    split <;> omega
  have key : ∀ t ∈ List.range k,
      (decide ((c + t) % k = j)) = true ↔ (decide (t = t0)) = true := by
    intro t ht
    rw [List.mem_range] at ht
    simp only [decide_eq_true_eq]
    have h1 : (c + t) % k = (c % k + t) % k := (Nat.mod_add_mod c k t).symm
    rw [h1]
    by_cases hlt : c % k + t < k
    · rw [Nat.mod_eq_of_lt hlt, ht0]
      split <;> omega
    · have h2 : (c % k + t) % k = c % k + t - k := by
        rw [Nat.mod_eq_sub_mod (by omega)]
        exact Nat.mod_eq_of_lt (by omega)
      rw [h2, ht0]
      split <;> omega
  exact (List.countP_congr key).trans (countP_decide_eq_one_range k t0 ht0k)

theorem rrCount_add (k b j M : Nat) (hk : 0 < k) (hj : j < k) :
    rrCount k b (M + k) j = rrCount k b M j + 1 := by
  unfold rrCount
  rw [List.range_add, List.countP_append, List.countP_map]
  congr 1
  have key : ∀ t ∈ List.range k,
      ((fun t => decide ((b + t) % k = j)) ∘ fun x => M + x) t = true ↔
        (fun t => decide (((b + M) + t) % k = j)) t = true := by
    intro t ht
    simp only [Function.comp, decide_eq_true_eq]
    rw [show b + (M + t) = b + M + t by omega]
  exact (List.countP_congr key).trans (rrWindow k (b + M) j hk hj)

theorem rrCount_mul_add (k b j q r : Nat) (hk : 0 < k) (hj : j < k) :
    rrCount k b (q * k + r) j = q + rrCount k b r j := by
  induction q with
  | zero => simp
  | succ n ih =>
    have h1 : (n + 1) * k + r = (n * k + r) + k := by ring
    rw [h1, rrCount_add k b j (n * k + r) hk hj, ih]
    omega

theorem rrCount_le_one (k b j r : Nat) (hk : 0 < k) (hj : j < k) (hr : r ≤ k) :
    rrCount k b r j ≤ 1 := by
  unfold rrCount
  calc (List.range r).countP (fun t => decide ((b + t) % k = j))
      ≤ (List.range k).countP (fun t => decide ((b + t) % k = j)) :=
        List.Sublist.countP_le _ (List.range_sublist.mpr hr)
    _ = 1 := rrWindow k b j hk hj

/-- Claim C6: over M consecutive routed calls with a fast pool of constant
size k, the shared round-robin index (advanced by one and wrapped modulo k
on every call) assigns each pool position j either floor(M/k) or ceil(M/k)
calls, from any starting index i0. -/
theorem c6_round_robin_fair (k i0 M j : Nat) (hk : 0 < k) (hj : j < k) :
    rrAssignCount k i0 M j = M / k ∨ rrAssignCount k i0 M j = (M + k - 1) / k := by
  have hclosed : rrAssignCount k i0 M j = rrCount k (i0 + 1) M j := by
    unfold rrAssignCount rrCount
    apply List.countP_congr
    intro t ht
    simp only [decide_eq_true_eq]
    rw [rrIndexSeq_closed, show i0 + 1 + t = i0 + t + 1 by omega]
  have hr : M % k < k := Nat.mod_lt _ hk
  have hM : M = (M / k) * k + M % k := by
    rw [Nat.mul_comm]
    exact (Nat.div_add_mod M k).symm
  have hsplit : rrCount k (i0 + 1) M j = M / k + rrCount k (i0 + 1) (M % k) j := by
    conv_lhs => rw [hM]
    exact rrCount_mul_add k (i0 + 1) j (M / k) (M % k) hk hj
  have hle : rrCount k (i0 + 1) (M % k) j ≤ 1 :=
    rrCount_le_one k (i0 + 1) j (M % k) hk hj (le_of_lt hr)
  rcases Nat.lt_or_ge (rrCount k (i0 + 1) (M % k) j) 1 with h0 | h1
  · left
    rw [hclosed, hsplit]
    omega
  · right
    have he : rrCount k (i0 + 1) (M % k) j = 1 := le_antisymm hle h1
    have hz : rrCount k (i0 + 1) 0 j = 0 := by simp [rrCount]
    have hrpos : 1 ≤ M % k := by
      by_contra hcon
      have hzero : M % k = 0 := by omega
      rw [hzero, hz] at he
      cases he
    have hceil : (M + k - 1) / k = M / k + 1 := by
      have h3 : (M / k + 1) * k = (M / k) * k + k := by ring
      have h2 : M + k - 1 = (M % k - 1) + k * (M / k + 1) := by
        have h4 : k * (M / k + 1) = (M / k + 1) * k := by ring
        omega
      rw [h2, Nat.add_mul_div_left _ _ hk, Nat.div_eq_of_lt (by omega)]
      omega
    rw [hclosed, hsplit, he, hceil]

/-- Witness for C6: a pool of 3 over 7 calls gives position 1 either 2 or 3
calls (here 3, the ceiling). -/
theorem c6_round_robin_fair_witness :
    rrAssignCount 3 0 7 1 = 7 / 3 ∨ rrAssignCount 3 0 7 1 = (7 + 3 - 1) / 3 :=
  c6_round_robin_fair 3 0 7 1 (by decide) (by decide)


/-! ## Cache evaluation lemmas -/

theorem cacheLookup_deny (ttlOf : String → Nat) (m p : String) (now : Nat)
    (c : List (String × CacheEntry)) (hm : noCacheMethods.contains m = true) :
    cacheLookup ttlOf m p now c = none := by
  have hmem : m ∈ noCacheMethods := by simpa using hm
  simp [cacheLookup, hmem]

theorem cacheLookup_of_jget_none (ttlOf : String → Nat) (m p : String) (now : Nat)
    (c : List (String × CacheEntry)) (hm : noCacheMethods.contains m = false)
    (hj : jget (m ++ ":" ++ p) c = none) :
    cacheLookup ttlOf m p now c = none := by
  have hmem : m ∉ noCacheMethods := by simpa using hm
  simp [cacheLookup, hmem, hj]

theorem cacheLookup_fresh (ttlOf : String → Nat) (m p : String) (now : Nat)
    (c : List (String × CacheEntry)) (e : CacheEntry)
    (hm : noCacheMethods.contains m = false)
    (hj : jget (m ++ ":" ++ p) c = some e) (ht : now - e.ts < ttlOf m) :
    cacheLookup ttlOf m p now c = some e := by
  have hmem : m ∉ noCacheMethods := by simpa using hm
  simp [cacheLookup, hmem, hj, ht]

theorem cacheLookup_stale (ttlOf : String → Nat) (m p : String) (now : Nat)
    (c : List (String × CacheEntry)) (e : CacheEntry)
    (hm : noCacheMethods.contains m = false)
    (hj : jget (m ++ ":" ++ p) c = some e) (ht : ¬(now - e.ts < ttlOf m)) :
    cacheLookup ttlOf m p now c = none := by
  have hmem : m ∉ noCacheMethods := by simpa using hm
  simp [cacheLookup, hmem, hj, ht]

theorem handleRequest_hit (ttlOf : String → Nat) (m p : String) (now : Nat)
    (c : List (String × CacheEntry)) (u : Upstream) (e : CacheEntry)
    (h : cacheLookup ttlOf m p now c = some e) :
    handleRequest ttlOf m p now c u =
      { result := some e.data, error := none, cached := true, usedUpstream := false,
        cacheAfter := c } := by
  unfold handleRequest
  rw [h]

theorem handleRequest_miss_netFail (ttlOf : String → Nat) (m p : String) (now : Nat)
    (c : List (String × CacheEntry)) (msg : String)
    (h : cacheLookup ttlOf m p now c = none) :
    handleRequest ttlOf m p now c (Upstream.netFail msg) =
      { result := none, error := some msg, cached := false, usedUpstream := true,
        cacheAfter := c } := by
  unfold handleRequest
  rw [h]

theorem handleRequest_miss_ok (ttlOf : String → Nat) (m p : String) (now : Nat)
    (c : List (String × CacheEntry)) (d : RpcData) (sz : Nat)
    (h : cacheLookup ttlOf m p now c = none) :
    handleRequest ttlOf m p now c (Upstream.ok d sz) =
      { result := some d, error := none, cached := false, usedUpstream := true,
        cacheAfter :=
          if !(noCacheMethods.contains m) && d.truthy && !d.hasError then
            evictIfNeeded (jset (m ++ ":" ++ p) { data := d, ts := now, size := sz } c)
          else c } := by
  unfold handleRequest
  rw [h]

theorem handleRequest_fill (ttlOf : String → Nat) (m p : String) (t1 : Nat)
    (c : List (String × CacheEntry)) (d : RpcData) (sz : Nat)
    (hm : noCacheMethods.contains m = false)
    (hlen : c.length < cacheMaxSize)
    (hfresh : jget (m ++ ":" ++ p) c = none)
    (hd : d.truthy = true) (he : d.hasError = false) :
    (handleRequest ttlOf m p t1 c (Upstream.ok d sz)).cacheAfter
      = jset (m ++ ":" ++ p) (CacheEntry.mk d t1 sz) c := by
  rw [handleRequest_miss_ok ttlOf m p t1 c d sz
    (cacheLookup_of_jget_none ttlOf m p t1 c hm hfresh)]
  have hnl : ¬ ((jset (m ++ ":" ++ p) (CacheEntry.mk d t1 sz) c).length > cacheMaxSize) := by
    have := jset_length_le (m ++ ":" ++ p) (CacheEntry.mk d t1 sz) c
    omega
  have hmem : m ∉ noCacheMethods := by simpa using hm
  simp [hmem, hd, he, evictIfNeeded, hnl]


/-! ## Claim C7: TTL cache semantics -/

/-- Claim C7: in a reachable cache (one holding no entry under any
deny-listed method's key), a lookup is a hit exactly when an entry exists
under the exact method-plus-serialized-params key with age strictly below
the method's TTL; a hit returns the stored value without an upstream call
and leaves the cache unchanged; an identical second request inside the TTL
window is served from the cache without a fresh upstream call, and the
same request once the TTL has elapsed is a miss that calls upstream again. -/
theorem c7_cache_ttl :
    (∀ (m p : String) (now : Nat) (c : List (String × CacheEntry)) (u : Upstream),
      (∀ m2 p2, noCacheMethods.contains m2 = true → jget (m2 ++ ":" ++ p2) c = none) →
      ((handleRequest cacheTTL m p now c u).cached = true ↔
        ∃ e, jget (m ++ ":" ++ p) c = some e ∧ now - e.ts < cacheTTL m)) ∧
    (∀ (m p : String) (now : Nat) (c : List (String × CacheEntry)) (u : Upstream)
        (e : CacheEntry),
      noCacheMethods.contains m = false →
      jget (m ++ ":" ++ p) c = some e → now - e.ts < cacheTTL m →
      (handleRequest cacheTTL m p now c u).result = some e.data ∧
      (handleRequest cacheTTL m p now c u).usedUpstream = false ∧
      (handleRequest cacheTTL m p now c u).cacheAfter = c) ∧
    (∀ (m p : String) (t1 t2 : Nat) (c : List (String × CacheEntry)) (d : RpcData)
        (sz : Nat) (u2 : Upstream),
      noCacheMethods.contains m = false →
      c.length < cacheMaxSize →
      jget (m ++ ":" ++ p) c = none →
      d.truthy = true → d.hasError = false →
      ((t2 - t1 < cacheTTL m →
        (handleRequest cacheTTL m p t2
          (handleRequest cacheTTL m p t1 c (Upstream.ok d sz)).cacheAfter u2).cached
            = true ∧
        (handleRequest cacheTTL m p t2
          (handleRequest cacheTTL m p t1 c (Upstream.ok d sz)).cacheAfter u2).result
            = some d ∧
        (handleRequest cacheTTL m p t2
          (handleRequest cacheTTL m p t1 c (Upstream.ok d sz)).cacheAfter u2).usedUpstream
            = false) ∧
      (cacheTTL m ≤ t2 - t1 →
        (handleRequest cacheTTL m p t2
          (handleRequest cacheTTL m p t1 c (Upstream.ok d sz)).cacheAfter u2).cached
            = false ∧
        (handleRequest cacheTTL m p t2
          (handleRequest cacheTTL m p t1 c (Upstream.ok d sz)).cacheAfter u2).usedUpstream
            = true))) := by
  have cachedFalse : ∀ (ttlOf : String → Nat) (m p : String) (now : Nat)
      (c : List (String × CacheEntry)) (u : Upstream),
      cacheLookup ttlOf m p now c = none →
      (handleRequest ttlOf m p now c u).cached = false ∧
      (handleRequest ttlOf m p now c u).usedUpstream = true := by
    intro ttlOf m p now c u hc
    cases u with
    | netFail msg =>
      rw [handleRequest_miss_netFail ttlOf m p now c msg hc]
      exact ⟨rfl, rfl⟩
    | ok d sz =>
      rw [handleRequest_miss_ok ttlOf m p now c d sz hc]
      exact ⟨rfl, rfl⟩
  refine ⟨?_, ?_, ?_⟩
  · intro m p now c u hinv
    by_cases hm : noCacheMethods.contains m = true
    · have h0 := hinv m p hm
      have hcf := (cachedFalse cacheTTL m p now c u (cacheLookup_deny cacheTTL m p now c hm)).1
      rw [hcf]
      simp [h0]
    · have hm2 : noCacheMethods.contains m = false := by
        cases hb : noCacheMethods.contains m
        · rfl
        · exact absurd hb hm
      cases hj : jget (m ++ ":" ++ p) c with
      | none =>
        have hcf := (cachedFalse cacheTTL m p now c u
          (cacheLookup_of_jget_none cacheTTL m p now c hm2 hj)).1
        rw [hcf]
        simp
      | some e =>
        by_cases ht : now - e.ts < cacheTTL m
        · rw [handleRequest_hit cacheTTL m p now c u e
            (cacheLookup_fresh cacheTTL m p now c e hm2 hj ht)]
          exact ⟨fun _ => ⟨e, rfl, ht⟩, fun _ => rfl⟩
        · have hcf := (cachedFalse cacheTTL m p now c u
            (cacheLookup_stale cacheTTL m p now c e hm2 hj ht)).1
          rw [hcf]
          simp [ht]
  · intro m p now c u e hm hj ht
    rw [handleRequest_hit cacheTTL m p now c u e
      (cacheLookup_fresh cacheTTL m p now c e hm hj ht)]
    exact ⟨rfl, rfl, rfl⟩
  · intro m p t1 t2 c d sz u2 hm hlen hfresh hd he
    have hfill := handleRequest_fill cacheTTL m p t1 c d sz hm hlen hfresh hd he
    rw [hfill]
    have hj2 : jget (m ++ ":" ++ p) (jset (m ++ ":" ++ p) (CacheEntry.mk d t1 sz) c)
        = some (CacheEntry.mk d t1 sz) := jget_jset_self _ _ _
    constructor
    · intro hlt
      rw [handleRequest_hit cacheTTL m p t2 _ u2 (CacheEntry.mk d t1 sz)
        (cacheLookup_fresh cacheTTL m p t2 _ (CacheEntry.mk d t1 sz) hm hj2 hlt)]
      exact ⟨rfl, rfl, rfl⟩
    · intro hge
      have hnot : ¬ (t2 - t1 < cacheTTL m) := by omega
      exact cachedFalse cacheTTL m p t2 _ u2
        (cacheLookup_stale cacheTTL m p t2 _ (CacheEntry.mk d t1 sz) hm hj2 hnot)

/-- Witness for C7 at a concrete run: a getSlot response cached at t = 1000
is served from the cache at t = 1400 (inside its 500 ms TTL). -/
theorem c7_cache_ttl_witness :
    (handleRequest cacheTTL "getSlot" "[]" 1400
      (handleRequest cacheTTL "getSlot" "[]" 1000 []
        (Upstream.ok (RpcData.mk 42 true false) 10)).cacheAfter
      (Upstream.netFail "down")).cached = true :=
  ((c7_cache_ttl.2.2 "getSlot" "[]" 1000 1400 [] (RpcData.mk 42 true false) 10
    (Upstream.netFail "down") (by decide) (by decide) (by decide) (by decide)
    (by decide)).1 (by decide)).1

/-! ## Claim C8: the never-cache deny-list -/

/-- Claim C8: a request whose method is on the fixed deny-list never
produces a cache hit and never changes the cache, whatever the cache
contents, the repetition, or the TTL configuration; and for every method,
only a successful upstream response (truthy body with no error field) ever
changes the cache: a network failure or an error response leaves it
untouched. -/
theorem c8_deny_list :
    (∀ (ttlOf : String → Nat) (m p : String) (now : Nat)
        (c : List (String × CacheEntry)) (u : Upstream),
      noCacheMethods.contains m = true →
      (handleRequest ttlOf m p now c u).cached = false ∧
      (handleRequest ttlOf m p now c u).cacheAfter = c) ∧
    (∀ (ttlOf : String → Nat) (m p : String) (now : Nat)
        (c : List (String × CacheEntry)) (msg : String),
      (handleRequest ttlOf m p now c (Upstream.netFail msg)).cacheAfter = c) ∧
    (∀ (ttlOf : String → Nat) (m p : String) (now : Nat)
        (c : List (String × CacheEntry)) (d : RpcData) (sz : Nat),
      d.truthy = false ∨ d.hasError = true →
      (handleRequest ttlOf m p now c (Upstream.ok d sz)).cacheAfter = c) := by
  refine ⟨?_, ?_, ?_⟩
  · intro ttlOf m p now c u hm
    have hden := cacheLookup_deny ttlOf m p now c hm
    cases u with
    | netFail msg =>
      rw [handleRequest_miss_netFail ttlOf m p now c msg hden]
      exact ⟨rfl, rfl⟩
    | ok d sz =>
      rw [handleRequest_miss_ok ttlOf m p now c d sz hden]
      refine ⟨rfl, ?_⟩
      have hmem : m ∈ noCacheMethods := by simpa using hm
      simp [hmem]
  · intro ttlOf m p now c msg
    cases hc : cacheLookup ttlOf m p now c with
    | some e => rw [handleRequest_hit ttlOf m p now c _ e hc]
    | none => rw [handleRequest_miss_netFail ttlOf m p now c msg hc]
  · intro ttlOf m p now c d sz hd
    cases hc : cacheLookup ttlOf m p now c with
    | some e => rw [handleRequest_hit ttlOf m p now c _ e hc]
    | none =>
      rw [handleRequest_miss_ok ttlOf m p now c d sz hc]
      rcases hd with h | h <;> simp [h]

/-- Witness for C8: a repeated sendTransaction is never served from the
cache and never stored, even with an entry planted under its key. -/
theorem c8_deny_list_witness :
    (handleRequest cacheTTL "sendTransaction" "[]" 0
      [("sendTransaction:[]", CacheEntry.mk (RpcData.mk 1 true false) 0 5)]
      (Upstream.ok (RpcData.mk 2 true false) 7)).cached = false :=
  (c8_deny_list.1 cacheTTL "sendTransaction" "[]" 0
    [("sendTransaction:[]", CacheEntry.mk (RpcData.mk 1 true false) 0 5)]
    (Upstream.ok (RpcData.mk 2 true false) 7) (by decide)).1

end Whistle
